import Mathlib

/-
Verification of the arrival-aggregation / vehicle-enrichment pipeline of the
oke transit bot (src/main.py).

The Python source is shallowly embedded as executable Lean definitions:

* Python `None`-able values become `Option`; Python truthiness of strings,
  lists and optional values is made explicit at each use site.
* Unix timestamps (`int(time.time()) + time_to_station`,
  `int(dt.timestamp())`) are modelled as `Int`.
* `datetime.fromisoformat` is library code outside the repository, so the
  normalizer is parameterised over an arbitrary parse oracle
  `parseIso : String -> Option Int` (`none` models a raised parse error,
  which line 185 catches).
* Network calls are parameterised over response oracles
  (`registry : String -> BTResponse`, etc.); the constructors of the
  response types enumerate the outcomes the `try/except` blocks of the
  source distinguish.
* Python string comparison, `str.split(",")`, `str.strip()`,
  `str.upper().replace(" ", "")` and slicing are modelled directly on the
  code-point lists (`String.data`), matching CPython semantics on the data
  the program handles.
* The Python builtin `sorted` (line 229) is a stable sort by tuple order; it is
  modelled with `List.insertionSort`, which is stable, over the embedded
  tuple order `entryLe`; over the linear tuple order the sorted
  permutation is unique, so the model is exact.
-/

namespace Oke

/-! ## Python string primitives -/

/-- Python `<` on strings: code-point lexicographic order on the character
list. -/
def charListLt : List Char → List Char → Bool
  | [], [] => false
  | [], _ :: _ => true
  | _ :: _, [] => false
  | a :: as, b :: bs => if a < b then true else if b < a then false else charListLt as bs

/-- Python `<=` on strings, on the character list. -/
def charListLe : List Char → List Char → Bool
  | [], _ => true
  | _ :: _, [] => false
  | a :: as, b :: bs => if a < b then true else if b < a then false else charListLe as bs

/-- Python `s1 < s2` for `str`. -/
def pyStrLt (a b : String) : Bool := charListLt a.data b.data

/-- Python `s1 <= s2` for `str`. -/
def pyStrLe (a b : String) : Bool := charListLe a.data b.data

/-- Python `s.upper().replace(" ", "")` as used on registration tokens
(lines 215, 279, 324): uppercase each character and drop spaces. -/
def normalizeReg (s : String) : String :=
  String.mk ((s.data.map Char.toUpper).filter (fun c => c != ' '))

/-- Python `s.split(",")` on the character list: split at every comma,
keeping empty segments. -/
def splitCommaAux : List Char → List (List Char)
  | [] => [[]]
  | c :: cs =>
    let rest := splitCommaAux cs
    if c = ',' then [] :: rest
    else
      match rest with
      | [] => [[c]]
      | g :: gs => (c :: g) :: gs

/-- Python `s.split(",")` (line 110). -/
def pySplitComma (s : String) : List String :=
  (splitCommaAux s.data).map String.mk

/-- The characters Python `str.strip()` removes. -/
def pyIsSpace (c : Char) : Bool :=
  c == ' ' || c == '\t' || c == '\n' || c == '\r' || c == Char.ofNat 11 || c == Char.ofNat 12

/-- Python `s.strip()` (line 110). -/
def pyStrip (s : String) : String :=
  String.mk (((s.data.dropWhile pyIsSpace).reverse.dropWhile pyIsSpace).reverse)

/-- Python `x or y` for an optional string field `x` (line 222): `None` and
the empty string are falsy, so they fall through to `y`. -/
def pyOrStr (x : Option String) (y : String) : String :=
  match x with
  | none => y
  | some s => if s == "" then y else s

/-! ## Raw arrivals and the Normalizer (lines 157-187) -/

/-- One entry of the TfL arrivals feed, with exactly the fields
`process_single_route` reads. A `none` models an absent key. -/
structure RawArrival where
  vehicleId : Option String
  destinationName : Option String
  stationName : Option String
  timeToStation : Option Int
  expectedArrival : Option String

/-- One value of the `bus_info` dict (lines 192-197). -/
structure BusRecord where
  destination : String
  next_stop : String
  time_due : String
  timestamp : Option Int
deriving DecidableEq

/-- `arrival.get("destinationName", "Unknown Destination")` (line 159). -/
def normDestination (a : RawArrival) : String :=
  a.destinationName.getD "Unknown Destination"

/-- `arrival.get("stationName", "Unknown Stop")` (line 160). -/
def normStation (a : RawArrival) : String :=
  a.stationName.getD "Unknown Stop"

/-- The `arrival_timestamp` computed on lines 166-187: `now + timeToStation`
when `timeToStation` is present, else the parse of `expectedArrival` when
present (`parseIso` returning `none` models the caught parse exception of
line 185), else `None`. -/
def arrivalInstant (now : Int) (parseIso : String → Option Int) (a : RawArrival) : Option Int :=
  match a.timeToStation with
  | some tts => some (now + tts)
  | none =>
    match a.expectedArrival with
    | some s => parseIso s
    | none => none

/-- The `time_due` string of lines 166-187: a relative-time markup tag when
the instant is known, the literal `"N/A"` otherwise. -/
def timeDue (now : Int) (parseIso : String → Option Int) (a : RawArrival) : String :=
  match arrivalInstant now parseIso a with
  | some t => "<t:" ++ toString t ++ ":R>"
  | none => "N/A"

/-- The record stored in `bus_info` for one arrival (lines 192-197 and
202-207). -/
def mkBusRecord (now : Int) (parseIso : String → Option Int) (a : RawArrival) : BusRecord :=
  { destination := normDestination a
    next_stop := normStation a
    time_due := timeDue now parseIso a
    timestamp := arrivalInstant now parseIso a }

/-- The guard `if vehicle_id and vehicle_id != "N/A"` (line 189): a missing
id (`None`) and the empty string are falsy in Python, and the sentinel
the sentinel "N/A" is excluded explicitly. Returns the usable key, or `none` when the
record is discarded. -/
def keptVehicleId : Option String → Option String
  | none => none
  | some vid => if vid == "" || vid == "N/A" then none else some vid

/-! ## The Per-Vehicle Reducer (lines 189-207)

`bus_info` is a Python dict; dicts preserve insertion order and hold each
key once, so it is embedded as an association list with fresh keys appended
at the end and updates performed in place. -/

/-- Dict lookup `bus_info[vehicle_id]` / membership `vehicle_id in bus_info`. -/
def lookupVid (m : List (String × BusRecord)) (vid : String) : Option BusRecord :=
  (m.find? (fun p => p.1 == vid)).map Prod.snd

/-- Dict update `bus_info[vehicle_id] = {...}` for a key already present. -/
def updateVid (m : List (String × BusRecord)) (vid : String) (r : BusRecord) :
    List (String × BusRecord) :=
  m.map (fun p => if p.1 == vid then (p.1, r) else p)

/-- One iteration of the `for arrival in data` loop (lines 157-207): discard
keyless records; insert a first record for a vehicle unconditionally;
replace the kept record only when both the new and the kept timestamp are
known and the new one is strictly smaller (lines 199-207). -/
def stepArrival (now : Int) (parseIso : String → Option Int)
    (m : List (String × BusRecord)) (a : RawArrival) : List (String × BusRecord) :=
  match keptVehicleId a.vehicleId with
  | none => m
  | some vid =>
    match lookupVid m vid with
    | none => m ++ [(vid, mkBusRecord now parseIso a)]
    | some kept =>
      match arrivalInstant now parseIso a, kept.timestamp with
      | some newT, some oldT =>
        if newT < oldT then updateVid m vid (mkBusRecord now parseIso a) else m
      | _, _ => m

/-- The whole reduction loop: fold the arrivals into the `bus_info` dict. -/
def reduceArrivals (now : Int) (parseIso : String → Option Int)
    (data : List RawArrival) : List (String × BusRecord) :=
  data.foldl (stepArrival now parseIso) []

/-! ## The bustimes.org registry client -/

/-- The `operator` object of a registry result; only its `name` field is
read. -/
structure BTOperator where
  opName : Option String
deriving DecidableEq

/-- One result object of the bustimes.org vehicles API, with the fields the
program reads. `none` models an absent or null JSON field. -/
structure BTVehicle where
  reg : Option String
  operatorInfo : Option BTOperator
  fleet_number : Option String
  fleet_code : Option String
  vehicle_type : Option String
  livery : Option String
  chassis : Option String
  nickname : Option String
  notes : Option String
  url : Option String
deriving DecidableEq

/-- Outcome of one enrichment call (lines 213-224): either the parsed
`results` list, or any caught failure (network error, non-success status,
timeout, malformed JSON) — the `except` on line 223 does not distinguish
them. A missing `results` key (`bt_data.get("results")` falsy) is the same
to the program as an empty list and is modelled as `ok []`. -/
inductive BTResponse where
  | ok (results : List BTVehicle)
  | failure

/-- The Vehicle Enricher (lines 212-224): query the registry with the
normalized registration; on success with a nonempty result list, take the
first result and evaluate
`vehicle.get("fleet_code") or vehicle.get("fleet_number") or "N/A"`
(line 222); every failure leaves the initial `"N/A"`. -/
def fleetCodeFor (registry : String → BTResponse) (r : String) : String :=
  match registry (normalizeReg r) with
  | .failure => "N/A"
  | .ok results =>
    match results with
    | [] => "N/A"
    | v :: _ => pyOrStr v.fleet_code (pyOrStr v.fleet_number "N/A")

/-! ## The Summary Builder (lines 210-247) -/

/-- One element of `bus_data` (line 226):
`(reg, destination, fleet_code, next_stop, time_due)`. -/
abbrev Entry := String × String × String × String × String

/-- The tuple appended to `bus_data` for one surviving vehicle (line 226). -/
def busEntry (registry : String → BTResponse) (pr : String × BusRecord) : Entry :=
  (pr.1, pr.2.destination, fleetCodeFor registry pr.1, pr.2.next_stop, pr.2.time_due)

/-- The `bus_data` list built from the reduced `bus_info` dict
(lines 210-226). -/
def busData (registry : String → BTResponse) (busInfo : List (String × BusRecord)) :
    List Entry :=
  busInfo.map (busEntry registry)

/-- Lexicographic step of Python tuple comparison: compare one component,
fall through to the rest on equality. -/
def lexStep (x y : String) (rest : Bool) : Bool :=
  if pyStrLt x y then true else if pyStrLt y x then false else rest

/-- Python `<=` on the 5-tuples of `bus_data`: lexicographic over Python
string comparison, component by component. -/
def entryLe (a b : Entry) : Bool :=
  lexStep a.1 b.1
    (lexStep a.2.1 b.2.1
      (lexStep a.2.2.1 b.2.2.1
        (lexStep a.2.2.2.1 b.2.2.2.1
          (pyStrLe a.2.2.2.2 b.2.2.2.2))))

/-- The order `sorted(bus_data)` sorts by, as a relation. -/
def entryRel (a b : Entry) : Prop := entryLe a b = true

instance : DecidableRel entryRel := fun a b =>
  inferInstanceAs (Decidable (entryLe a b = true))

/-- `sorted_buses = sorted(bus_data)` (line 229): Python `sorted` is a
stable sort by tuple order; `List.insertionSort` is stable, and over this
linear tuple order the sorted permutation is unique. -/
def sortedBuses (registry : String → BTResponse) (busInfo : List (String × BusRecord)) :
    List Entry :=
  List.insertionSort entryRel (busData registry busInfo)

/-- One rendered line (line 243):
`f"{fleet} - {reg} towards {dest} due {time_str} at {stop}"`. -/
def renderLine (e : Entry) : String :=
  e.2.2.1 ++ " - " ++ e.1 ++ " towards " ++ e.2.1 ++ " due " ++ e.2.2.2.2 ++ " at " ++ e.2.2.2.1

/-- The `bus_lines` list (lines 241-244). -/
def busLines (registry : String → BTResponse) (busInfo : List (String × BusRecord)) :
    List String :=
  (sortedBuses registry busInfo).map renderLine

/-! ## The Route Query Orchestrator (lines 99-129) -/

/-- The reply of the `route` command: either a plain message or up to ten
per-route embed blocks. The block type is abstract: `process_single_route`
returns an embed or `None`, and the orchestrator only collects and caps
them. -/
inductive RouteResponse (B : Type) where
  | message (text : String)
  | embeds (blocks : List B)

/-- `[r.strip() for r in route_number.split(",") if r.strip()]` (line 110):
split on commas, strip each token, drop tokens that strip to the empty
string. -/
def routeTokens (input : String) : List String :=
  ((pySplitComma input).map pyStrip).filter (fun r => r != "")

/-- The body of the `route` command (lines 110-129), parameterised over
`process_single_route` as a function from a route token to an optional
block: reject an empty token list; otherwise collect the blocks of the
routes that produced one; send the first ten of them, or the uniform
not-found message when there are none. -/
def routeCommand {B : Type} (processRoute : String → Option B) (input : String) :
    RouteResponse B :=
  let routeNumbers := routeTokens input
  if routeNumbers.isEmpty then
    .message "Please provide at least one valid route number."
  else
    let embeds := routeNumbers.filterMap processRoute
    if embeds.isEmpty then
      .message "Could not retrieve information for any of the requested routes."
    else
      .embeds (embeds.take 10)

/-! ## The Autocomplete Suggester (lines 261-309) -/

/-- One autocomplete choice: the display label and the underlying value. -/
structure Choice where
  label : String
  value : String

/-- The truncation of lines 300-301: labels longer than 100 characters are
cut to their first 97 characters (Python slicing `[:97]`) plus `"..."`. -/
def truncateLabel (s : String) : String :=
  if s.length > 100 then String.mk (s.data.take 97) ++ "..." else s

/-- The display label for one search result (lines 289-301): registration
and operator name, with the fleet number appended when truthy, truncated to
97 characters plus an ellipsis when longer than 100. -/
def displayNameOf (v : BTVehicle) : String :=
  let r := v.reg.getD ""
  let opN := (v.operatorInfo.bind BTOperator.opName).getD "Unknown Operator"
  let fleet_num := v.fleet_number.getD ""
  truncateLabel
    (if fleet_num != "" then r ++ " - " ++ opN ++ " (Fleet: " ++ fleet_num ++ ")"
     else r ++ " - " ++ opN)

/-- The `vehicle_autocomplete` callback (lines 261-309), parameterised over
the search endpoint (`none` models any caught upstream failure): inputs
shorter than two characters yield no choices; otherwise the first 25
results are rendered; any failure yields no choices. -/
def vehicleAutocomplete (search : String → Option (List BTVehicle)) (current : String) :
    List Choice :=
  if current.length < 2 then []
  else
    match search (normalizeReg current) with
    | none => []
    | some results =>
      (results.take 25).map (fun v => ⟨displayNameOf v, v.reg.getD ""⟩)

/-! ## The Vehicle Lookup command (lines 311-386) -/

/-- Outcome of the registry request inside the `vehicle` command, as the
`try/except` structure of lines 327-386 distinguishes it:
`ok` when the request and JSON parse succeed, `httpError` when
`raise_for_status` raises (carrying the status code and the text of the
`HTTPError`), `connectionFailure` when `requests.get` itself raises, and
`parseFailure` when `response.json()` raises. -/
inductive RegistryOutcome where
  | ok (results : List BTVehicle)
  | httpError (status : Nat) (errText : String)
  | connectionFailure
  | parseFailure

/-- The reply of the `vehicle` command: a plain message, or the profile
embed built from the first result. -/
inductive VehicleReply where
  | message (text : String)
  | profile (v : BTVehicle)
deriving DecidableEq

/-- Python truthiness of a `requests.Response` object:
`Response.__bool__` returns `self.ok`, which is `status_code < 400`. Used
by `if response and response.status_code == 404` (line 380); inside the
`HTTPError` handler the status is always at least 400, so that branch never
fires. -/
def responseTruthy (status : Nat) : Bool := status < 400

/-- The body of the `vehicle` command (lines 326-386): no results renders
the not-found message; a first result renders the profile embed; an
`HTTPError` renders the 404 message when `response` is truthy and the
status is 404 (never, see `responseTruthy`), otherwise the HTTP-error
message carrying the error text; any other exception (connection failure,
JSON parse failure) renders the generic failure message. -/
def vehicleCommand (registration : String) (outcome : RegistryOutcome) : VehicleReply :=
  match outcome with
  | .ok results =>
    match results with
    | [] => .message ("No vehicle found with registration **" ++ registration ++ "**.")
    | v :: _ => .profile v
  | .httpError status errText =>
    if responseTruthy status && status == 404 then
      .message ("Vehicle **" ++ registration ++ "** could not be found.")
    else
      .message ("An HTTP error occurred: " ++ errText)
  | .connectionFailure =>
    .message "Sorry, an unexpected error occurred while fetching the vehicle data."
  | .parseFailure =>
    .message "Sorry, an unexpected error occurred while fetching the vehicle data."

/-! ## Order facts about the Python string comparison -/

theorem charListLt_irrefl (l : List Char) : charListLt l l = false := by
  induction l with
  | nil => rfl
  | cons a as ih => simp [charListLt, lt_irrefl, ih]

theorem charListLt_asymm {x y : List Char} (h : charListLt x y = true) :
    charListLt y x = false := by
  induction x generalizing y with
  | nil =>
    cases y with
    | nil => simp [charListLt] at h
    | cons b bs => simp [charListLt]
  | cons a as ih =>
    cases y with
    | nil => simp [charListLt] at h
    | cons b bs =>
      by_cases hab : a < b
      · simp [charListLt, hab, asymm hab]
      · by_cases hba : b < a
        · simp [charListLt, hab, hba] at h
        · simp only [charListLt, if_neg hab, if_neg hba] at h
          simp [charListLt, hab, hba, ih h]

theorem charListLt_trans {x y z : List Char} (hxy : charListLt x y = true)
    (hyz : charListLt y z = true) : charListLt x z = true := by
  induction x generalizing y z with
  | nil =>
    cases y with
    | nil => simp [charListLt] at hxy
    | cons b bs =>
      cases z with
      | nil => simp [charListLt] at hyz
      | cons c cs => simp [charListLt]
  | cons a as ih =>
    cases y with
    | nil => simp [charListLt] at hxy
    | cons b bs =>
      cases z with
      | nil => simp [charListLt] at hyz
      | cons c cs =>
        by_cases hab : a < b
        · by_cases hbc : b < c
          · simp [charListLt, lt_trans hab hbc]
          · by_cases hcb : c < b
            · simp [charListLt, hbc, hcb] at hyz
            · have hbc' : b = c := le_antisymm (not_lt.mp hcb) (not_lt.mp hbc)
              subst hbc'
              simp [charListLt, hab]
        · by_cases hba : b < a
          · simp [charListLt, hab, hba] at hxy
          · have hab' : a = b := le_antisymm (not_lt.mp hba) (not_lt.mp hab)
            subst hab'
            simp only [charListLt, if_neg hab, if_neg hba] at hxy
            by_cases hbc : a < c
            · simp [charListLt, hbc]
            · by_cases hcb : c < a
              · simp [charListLt, hbc, hcb] at hyz
              · simp only [charListLt, if_neg hbc, if_neg hcb] at hyz ⊢
                exact ih hxy hyz

theorem charListLt_eq_of_not {x y : List Char} (hxy : charListLt x y = false)
    (hyx : charListLt y x = false) : x = y := by
  induction x generalizing y with
  | nil =>
    cases y with
    | nil => rfl
    | cons b bs => simp [charListLt] at hxy
  | cons a as ih =>
    cases y with
    | nil => simp [charListLt] at hyx
    | cons b bs =>
      by_cases hab : a < b
      · simp [charListLt, hab] at hxy
      · by_cases hba : b < a
        · simp [charListLt, hab, hba] at hyx
        · have hab' : a = b := le_antisymm (not_lt.mp hba) (not_lt.mp hab)
          subst hab'
          simp only [charListLt, if_neg hab, if_neg hba] at hxy hyx
          rw [ih hxy hyx]

theorem charListLe_eq_not_lt (x y : List Char) : charListLe x y = !(charListLt y x) := by
  induction x generalizing y with
  | nil =>
    cases y with
    | nil => rfl
    | cons b bs => rfl
  | cons a as ih =>
    cases y with
    | nil => rfl
    | cons b bs =>
      by_cases hab : a < b
      · simp [charListLe, charListLt, hab, asymm hab]
      · by_cases hba : b < a
        · simp [charListLe, charListLt, hab, hba]
        · simp [charListLe, charListLt, hab, hba, ih bs]

theorem pyStrLt_asymm {x y : String} (h : pyStrLt x y = true) : pyStrLt y x = false :=
  charListLt_asymm h

theorem pyStrLt_trans {x y z : String} (hxy : pyStrLt x y = true)
    (hyz : pyStrLt y z = true) : pyStrLt x z = true :=
  charListLt_trans hxy hyz

theorem pyStrLt_eq_of_not {x y : String} (hxy : pyStrLt x y = false)
    (hyx : pyStrLt y x = false) : x = y := by
  cases x with
  | mk xd =>
    cases y with
    | mk yd =>
      have : xd = yd := charListLt_eq_of_not hxy hyx
      rw [this]

theorem pyStrLe_eq_not_lt (x y : String) : pyStrLe x y = !(pyStrLt y x) :=
  charListLe_eq_not_lt x.data y.data

theorem pyStrLe_total (x y : String) : (pyStrLe x y || pyStrLe y x) = true := by
  rw [pyStrLe_eq_not_lt, pyStrLe_eq_not_lt]
  by_cases h : pyStrLt x y = true
  · simp [pyStrLt_asymm h]
  · simp [Bool.not_eq_true] at h
    simp [h]

theorem pyStrLe_trans {x y z : String} (hxy : pyStrLe x y = true)
    (hyz : pyStrLe y z = true) : pyStrLe x z = true := by
  rw [pyStrLe_eq_not_lt] at hxy hyz ⊢
  simp only [Bool.not_eq_true'] at hxy hyz ⊢
  by_cases hzx : pyStrLt z x = true
  · exfalso
    by_cases hyz2 : pyStrLt y z = true
    · have : pyStrLt y x = true := pyStrLt_trans hyz2 hzx
      simp [hxy] at this
    · simp only [Bool.not_eq_true] at hyz2
      have he : y = z := pyStrLt_eq_of_not hyz2 hyz
      subst he
      simp [hzx] at hxy
  · simp only [Bool.not_eq_true] at hzx
    exact hzx

theorem pyStrLe_antisymm {x y : String} (hxy : pyStrLe x y = true)
    (hyx : pyStrLe y x = true) : x = y := by
  rw [pyStrLe_eq_not_lt] at hxy hyx
  simp only [Bool.not_eq_true'] at hxy hyx
  exact pyStrLt_eq_of_not hyx hxy

/-! ## Order facts about the tuple comparison of `sorted(bus_data)` -/

theorem lexStep_total {x y : String} {r r' : Bool} (h : (r || r') = true) :
    (lexStep x y r || lexStep y x r') = true := by
  unfold lexStep
  by_cases hxy : pyStrLt x y = true
  · simp [hxy]
  · by_cases hyx : pyStrLt y x = true
    · simp [hyx]
    · simp only [Bool.not_eq_true] at hxy hyx
      simp [hxy, hyx, h]

theorem lexStep_trans {x y z : String} {r₁ r₂ r₃ : Bool}
    (hr : r₁ = true → r₂ = true → r₃ = true)
    (h₁ : lexStep x y r₁ = true) (h₂ : lexStep y z r₂ = true) :
    lexStep x z r₃ = true := by
  unfold lexStep at h₁ h₂ ⊢
  by_cases hxy : pyStrLt x y = true
  · by_cases hyz : pyStrLt y z = true
    · simp [pyStrLt_trans hxy hyz]
    · by_cases hzy : pyStrLt z y = true
      · simp [hyz, hzy] at h₂
      · simp only [Bool.not_eq_true] at hyz hzy
        have : y = z := pyStrLt_eq_of_not hyz hzy
        subst this
        simp [hxy]
  · by_cases hyx : pyStrLt y x = true
    · simp [hxy, hyx] at h₁
    · simp only [Bool.not_eq_true] at hxy hyx
      have he : x = y := pyStrLt_eq_of_not hxy hyx
      subst he
      have hnxy : ¬ (pyStrLt x x = true) := by simp [hxy]
      rw [if_neg hnxy, if_neg hnxy] at h₁
      by_cases hyz : pyStrLt x z = true
      · simp [hyz]
      · by_cases hzy : pyStrLt z x = true
        · simp [hyz, hzy] at h₂
        · have hnyz : ¬ (pyStrLt x z = true) := by simp [hyz]
          have hnzy : ¬ (pyStrLt z x = true) := by simp [hzy]
          rw [if_neg hnyz, if_neg hnzy] at h₂
          rw [if_neg hnyz, if_neg hnzy]
          exact hr h₁ h₂

theorem lexStep_antisymm {x y : String} {r₁ r₂ : Bool}
    (h₁ : lexStep x y r₁ = true) (h₂ : lexStep y x r₂ = true) :
    x = y ∧ r₁ = true ∧ r₂ = true := by
  unfold lexStep at h₁ h₂
  by_cases hxy : pyStrLt x y = true
  · simp [hxy, pyStrLt_asymm hxy] at h₂
  · by_cases hyx : pyStrLt y x = true
    · simp [hxy, hyx] at h₁
    · simp only [Bool.not_eq_true] at hxy hyx
      have he : x = y := pyStrLt_eq_of_not hxy hyx
      subst he
      have hnxy : ¬ (pyStrLt x x = true) := by simp [hxy]
      rw [if_neg hnxy, if_neg hnxy] at h₁
      rw [if_neg hnxy, if_neg hnxy] at h₂
      exact ⟨rfl, h₁, h₂⟩

theorem lexStep_first {x y : String} {r : Bool} (h : lexStep x y r = true) :
    pyStrLt x y = true ∨ x = y := by
  unfold lexStep at h
  by_cases hxy : pyStrLt x y = true
  · exact Or.inl hxy
  · by_cases hyx : pyStrLt y x = true
    · simp [hxy, hyx] at h
    · simp only [Bool.not_eq_true] at hxy hyx
      exact Or.inr (pyStrLt_eq_of_not hxy hyx)

instance : IsTotal Entry entryRel := by
  constructor
  intro a b
  have h : (entryLe a b || entryLe b a) = true := by
    unfold entryLe
    exact lexStep_total (lexStep_total (lexStep_total (lexStep_total
      (pyStrLe_total _ _))))
  rcases Bool.or_eq_true_iff.mp h with h | h
  · exact Or.inl h
  · exact Or.inr h

instance : IsTrans Entry entryRel := by
  constructor
  intro a b c hab hbc
  unfold entryRel entryLe at hab hbc ⊢
  exact lexStep_trans (fun h₁ h₂ => lexStep_trans (fun h₁ h₂ =>
    lexStep_trans (fun h₁ h₂ => lexStep_trans (fun h₁ h₂ =>
      pyStrLe_trans h₁ h₂) h₁ h₂) h₁ h₂) h₁ h₂) hab hbc

instance : IsAntisymm Entry entryRel := by
  constructor
  intro a b hab hba
  unfold entryRel entryLe at hab hba
  obtain ⟨e1, hab, hba⟩ := lexStep_antisymm hab hba
  obtain ⟨e2, hab, hba⟩ := lexStep_antisymm hab hba
  obtain ⟨e3, hab, hba⟩ := lexStep_antisymm hab hba
  obtain ⟨e4, hab, hba⟩ := lexStep_antisymm hab hba
  have e5 : a.2.2.2.2 = b.2.2.2.2 := pyStrLe_antisymm hab hba
  obtain ⟨a1, a2, a3, a4, a5⟩ := a
  obtain ⟨b1, b2, b3, b4, b5⟩ := b
  simp only at e1 e2 e3 e4 e5
  rw [e1, e2, e3, e4, e5]

/-- An `entryLe` pair with distinct first components is strictly ordered on
the first component. -/
theorem entryRel_first_lt {a b : Entry} (h : entryRel a b) (hne : a.1 ≠ b.1) :
    pyStrLt a.1 b.1 = true := by
  unfold entryRel entryLe at h
  rcases lexStep_first h with h' | h'
  · exact h'
  · exact absurd h' hne

/-! ## Helper lemmas about the Reducer -/

theorem keptVehicleId_some {o : Option String} {v : String}
    (h : keptVehicleId o = some v) : o = some v ∧ v ≠ "" ∧ v ≠ "N/A" := by
  cases o with
  | none => simp [keptVehicleId] at h
  | some vid =>
    have h' : (if (vid == "" || vid == "N/A") = true then (none : Option String)
        else some vid) = some v := h
    by_cases h1 : (vid == "" || vid == "N/A") = true
    · rw [if_pos h1] at h'
      exact absurd h' (by simp)
    · rw [if_neg h1] at h'
      simp only [Option.some.injEq] at h'
      subst h'
      simpa using h1

theorem keptVehicleId_of_valid {v : String} (hv1 : v ≠ "") (hv2 : v ≠ "N/A") :
    keptVehicleId (some v) = some v := by
  simp [keptVehicleId, hv1, hv2]

theorem lookupVid_nil (v : String) : lookupVid [] v = none := rfl

theorem lookupVid_cons (p : String × BusRecord) (t : List (String × BusRecord)) (v : String) :
    lookupVid (p :: t) v = if p.1 == v then some p.2 else lookupVid t v := by
  by_cases hp : (p.1 == v) = true
  · simp [lookupVid, List.find?_cons_of_pos, hp]
  · simp only [Bool.not_eq_true] at hp
    simp [lookupVid, List.find?_cons_of_neg, hp]

theorem lookupVid_updateVid (m : List (String × BusRecord)) (vid : String) (r : BusRecord)
    (h : (lookupVid m vid).isSome = true) :
    lookupVid (updateVid m vid r) vid = some r := by
  induction m with
  | nil => simp [lookupVid] at h
  | cons p t ih =>
    by_cases hp : p.1 = vid
    · simp [updateVid, lookupVid_cons, hp]
    · have hb : ¬ ((p.1 == vid) = true) := by simpa using hp
      have hupd : updateVid (p :: t) vid r = p :: updateVid t vid r := by
        simp [updateVid, hp]
      rw [lookupVid_cons, if_neg hb] at h
      rw [hupd, lookupVid_cons, if_neg hb]
      exact ih h

theorem stepArrival_of_discard {now : Int} {p : String → Option Int}
    {m : List (String × BusRecord)} {a : RawArrival}
    (hk : keptVehicleId a.vehicleId = none) : stepArrival now p m a = m := by
  unfold stepArrival
  rw [hk]

theorem stepArrival_of_kept {now : Int} {p : String → Option Int}
    {m : List (String × BusRecord)} {a : RawArrival} {vid : String}
    (hk : keptVehicleId a.vehicleId = some vid) :
    stepArrival now p m a =
      match lookupVid m vid with
      | none => m ++ [(vid, mkBusRecord now p a)]
      | some kept =>
        match arrivalInstant now p a, kept.timestamp with
        | some newT, some oldT =>
          if newT < oldT then updateVid m vid (mkBusRecord now p a) else m
        | _, _ => m := by
  unfold stepArrival
  rw [hk]

/-- Which keys one loop iteration can touch: every entry of the new dict
either has the key of an existing entry or the key admitted by the line 189
guard. -/
theorem stepArrival_key_mem {now : Int} {p : String → Option Int}
    {m : List (String × BusRecord)} {a : RawArrival} {q : String × BusRecord}
    (hq : q ∈ stepArrival now p m a) :
    (∃ pp ∈ m, q.1 = pp.1) ∨ keptVehicleId a.vehicleId = some q.1 := by
  unfold stepArrival at hq
  split at hq
  · exact Or.inl ⟨q, hq, rfl⟩
  · rename_i vid hk
    split at hq
    · rcases List.mem_append.mp hq with h | h
      · exact Or.inl ⟨q, h, rfl⟩
      · simp only [List.mem_singleton] at h
        subst h
        exact Or.inr (by simp [hk])
    · rename_i kept hl
      split at hq
      · rename_i newT oldT hi ht
        split at hq
        · unfold updateVid at hq
          rcases List.mem_map.mp hq with ⟨pp, hpp, hqeq⟩
          subst hqeq
          by_cases hkey : (pp.1 == vid) = true
          · exact Or.inl ⟨pp, hpp, by simp [hkey]⟩
          · simp only [Bool.not_eq_true] at hkey
            exact Or.inl ⟨pp, hpp, by simp [hkey]⟩
        · exact Or.inl ⟨q, hq, rfl⟩
      · exact Or.inl ⟨q, hq, rfl⟩

theorem stepArrival_insert {now : Int} {p : String → Option Int}
    {m : List (String × BusRecord)} {a : RawArrival} {vid : String}
    (hk : keptVehicleId a.vehicleId = some vid) (hl : lookupVid m vid = none) :
    stepArrival now p m a = m ++ [(vid, mkBusRecord now p a)] := by
  rw [stepArrival_of_kept hk, hl]

theorem stepArrival_existing {now : Int} {p : String → Option Int}
    {m : List (String × BusRecord)} {a : RawArrival} {vid : String} {kept : BusRecord}
    (hk : keptVehicleId a.vehicleId = some vid) (hl : lookupVid m vid = some kept) :
    stepArrival now p m a =
      match arrivalInstant now p a, kept.timestamp with
      | some newT, some oldT =>
        if newT < oldT then updateVid m vid (mkBusRecord now p a) else m
      | _, _ => m := by
  rw [stepArrival_of_kept hk, hl]

theorem stepArrival_keep_of_new_none {now : Int} {p : String → Option Int}
    {m : List (String × BusRecord)} {a : RawArrival} {vid : String} {kept : BusRecord}
    (hk : keptVehicleId a.vehicleId = some vid) (hl : lookupVid m vid = some kept)
    (hi : arrivalInstant now p a = none) : stepArrival now p m a = m := by
  rw [stepArrival_existing hk hl, hi]

theorem stepArrival_keep_of_old_none {now : Int} {p : String → Option Int}
    {m : List (String × BusRecord)} {a : RawArrival} {vid : String} {kept : BusRecord}
    (hk : keptVehicleId a.vehicleId = some vid) (hl : lookupVid m vid = some kept)
    (ht : kept.timestamp = none) : stepArrival now p m a = m := by
  rw [stepArrival_existing hk hl, ht]
  cases arrivalInstant now p a with
  | none => rfl
  | some newT => rfl

theorem stepArrival_replace {now : Int} {p : String → Option Int}
    {m : List (String × BusRecord)} {a : RawArrival} {vid : String} {kept : BusRecord}
    {newT oldT : Int}
    (hk : keptVehicleId a.vehicleId = some vid) (hl : lookupVid m vid = some kept)
    (hi : arrivalInstant now p a = some newT) (ht : kept.timestamp = some oldT)
    (hlt : newT < oldT) :
    stepArrival now p m a = updateVid m vid (mkBusRecord now p a) := by
  rw [stepArrival_existing hk hl, hi, ht]
  exact if_pos hlt

theorem stepArrival_keep_of_not_lt {now : Int} {p : String → Option Int}
    {m : List (String × BusRecord)} {a : RawArrival} {vid : String} {kept : BusRecord}
    {newT oldT : Int}
    (hk : keptVehicleId a.vehicleId = some vid) (hl : lookupVid m vid = some kept)
    (hi : arrivalInstant now p a = some newT) (ht : kept.timestamp = some oldT)
    (hge : ¬ newT < oldT) : stepArrival now p m a = m := by
  rw [stepArrival_existing hk hl, hi, ht]
  exact if_neg hge

theorem reduce_keys_aux (now : Int) (p : String → Option Int)
    (data : List RawArrival) (m : List (String × BusRecord))
    (hm : ∀ q ∈ m, q.1 ≠ "" ∧ q.1 ≠ "N/A") :
    ∀ q ∈ data.foldl (stepArrival now p) m, q.1 ≠ "" ∧ q.1 ≠ "N/A" := by
  induction data generalizing m with
  | nil => exact hm
  | cons a t ih =>
    intro q hq
    refine ih (stepArrival now p m a) ?_ q hq
    intro q' hq'
    rcases stepArrival_key_mem hq' with ⟨pp, hpp, he⟩ | hk
    · rw [he]
      exact hm pp hpp
    · have := (keptVehicleId_some hk).2
      exact this

/-! ## Concrete inputs used by witnesses and counterexamples -/

/-- A parse oracle under which every `expectedArrival` timestamp fails to
parse. -/
def parseNone : String → Option Int := fun _ => none

/-- An arrival for vehicle V1 carrying neither time source: its arrival
instant is unknown. -/
def arrUnknown : RawArrival := ⟨some "V1", none, none, none, none⟩

/-- An arrival for vehicle V1 due in 60 seconds: its arrival instant is
known. -/
def arrKnown : RawArrival := ⟨some "V1", none, none, some 60, none⟩

/-- An arrival for vehicle V1 due in 120 seconds. -/
def arrLater : RawArrival := ⟨some "V1", none, none, some 120, none⟩

/-! ## Claims about the Per-Vehicle Reducer -/

/-- Claim C1, counterexample: with one unknown-instant and one
known-instant arrival for vehicle V1, in the order unknown first, the
reducer retains the record with the UNKNOWN instant (timestamp `none`),
not the one with the known instant `1060` — the replace condition on
line 200 requires the kept timestamp to be non-`None`, so a known instant
never displaces an unknown first record. -/
theorem c1_counterexample :
    (lookupVid (reduceArrivals 1000 parseNone [arrUnknown, arrKnown]) "V1").map
        BusRecord.timestamp = some none
    ∧ arrivalInstant 1000 parseNone arrKnown = some 1060
    ∧ arrivalInstant 1000 parseNone arrUnknown = none
    ∧ arrUnknown.vehicleId = some "V1" ∧ arrKnown.vehicleId = some "V1" := by
  decide

/-- Claim C1 (amended): for one known-instant and one unknown-instant
arrival for the same vehicle, the record with the known instant is retained
exactly when it appears first; when the unknown-instant record appears
first, that first record is retained, because replacement (line 200)
requires both instants to be known. -/
theorem c1_amended_known_vs_unknown (now : Int) (p : String → Option Int)
    (a b : RawArrival) (v : String)
    (hva : a.vehicleId = some v) (hvb : b.vehicleId = some v)
    (hv1 : v ≠ "") (hv2 : v ≠ "N/A")
    (_ha : (arrivalInstant now p a).isSome = true) (hb : arrivalInstant now p b = none) :
    lookupVid (reduceArrivals now p [a, b]) v = some (mkBusRecord now p a)
    ∧ lookupVid (reduceArrivals now p [b, a]) v = some (mkBusRecord now p b) := by
  have hka : keptVehicleId a.vehicleId = some v := by
    rw [hva]; exact keptVehicleId_of_valid hv1 hv2
  have hkb : keptVehicleId b.vehicleId = some v := by
    rw [hvb]; exact keptVehicleId_of_valid hv1 hv2
  have hself : ∀ r : BusRecord, lookupVid [(v, r)] v = some r := by
    intro r
    rw [lookupVid_cons]
    simp
  constructor
  · show lookupVid (stepArrival now p (stepArrival now p [] a) b) v = _
    rw [stepArrival_insert hka (lookupVid_nil v), List.nil_append,
      stepArrival_keep_of_new_none hkb (hself _) hb, hself]
  · show lookupVid (stepArrival now p (stepArrival now p [] b) a) v = _
    rw [stepArrival_insert hkb (lookupVid_nil v), List.nil_append]
    have htb : (mkBusRecord now p b).timestamp = none := hb
    rw [stepArrival_keep_of_old_none hka (hself _) htb, hself]

/-- Witness for the amended C1 at `now = 1000` with the concrete arrivals
for V1: known first retains the known record, unknown first retains the
unknown record. -/
theorem c1_amended_witness :
    lookupVid (reduceArrivals 1000 parseNone [arrKnown, arrUnknown]) "V1"
        = some (mkBusRecord 1000 parseNone arrKnown)
    ∧ lookupVid (reduceArrivals 1000 parseNone [arrUnknown, arrKnown]) "V1"
        = some (mkBusRecord 1000 parseNone arrUnknown) :=
  c1_amended_known_vs_unknown 1000 parseNone arrKnown arrUnknown "V1" rfl rfl
    (by decide) (by decide) rfl rfl

/-- Claim C3: with two known instants `t1 < t2` for the same vehicle, in
either input order the retained record is the one with instant `t1`; and in
general one loop iteration replaces the kept record for a vehicle only when
both its instant and the kept instant are known and the new instant is
strictly earlier (in which case the new record is stored). -/
theorem c3_soonest_known_wins (now : Int) (p : String → Option Int)
    (a b : RawArrival) (v : String) (t1 t2 : Int)
    (hva : a.vehicleId = some v) (hvb : b.vehicleId = some v)
    (hv1 : v ≠ "") (hv2 : v ≠ "N/A")
    (ha : arrivalInstant now p a = some t1) (hb : arrivalInstant now p b = some t2)
    (hlt : t1 < t2) :
    ((lookupVid (reduceArrivals now p [a, b]) v).map BusRecord.timestamp = some (some t1)
     ∧ (lookupVid (reduceArrivals now p [b, a]) v).map BusRecord.timestamp = some (some t1))
    ∧ (∀ (m : List (String × BusRecord)) (c : RawArrival) (kept : BusRecord),
        keptVehicleId c.vehicleId = some v → lookupVid m v = some kept →
        lookupVid (stepArrival now p m c) v ≠ some kept →
        ∃ tN tO, arrivalInstant now p c = some tN ∧ kept.timestamp = some tO ∧ tN < tO
          ∧ lookupVid (stepArrival now p m c) v = some (mkBusRecord now p c)) := by
  have hka : keptVehicleId a.vehicleId = some v := by
    rw [hva]; exact keptVehicleId_of_valid hv1 hv2
  have hkb : keptVehicleId b.vehicleId = some v := by
    rw [hvb]; exact keptVehicleId_of_valid hv1 hv2
  have hself : ∀ r : BusRecord, lookupVid [(v, r)] v = some r := by
    intro r
    rw [lookupVid_cons]
    simp
  have hta : (mkBusRecord now p a).timestamp = some t1 := ha
  have htb : (mkBusRecord now p b).timestamp = some t2 := hb
  refine ⟨⟨?_, ?_⟩, ?_⟩
  · show (lookupVid (stepArrival now p (stepArrival now p [] a) b) v).map _ = _
    rw [stepArrival_insert hka (lookupVid_nil v), List.nil_append,
      stepArrival_keep_of_not_lt hkb (hself _) hb hta (by omega), hself]
    simp [hta]
  · show (lookupVid (stepArrival now p (stepArrival now p [] b) a) v).map _ = _
    rw [stepArrival_insert hkb (lookupVid_nil v), List.nil_append,
      stepArrival_replace hka (hself _) ha htb hlt]
    have : updateVid [(v, mkBusRecord now p b)] v (mkBusRecord now p a)
        = [(v, mkBusRecord now p a)] := by
      simp [updateVid]
    rw [this, hself]
    simp [hta]
  · intro m c kept hkc hlk hne
    cases hi : arrivalInstant now p c with
    | none => exact absurd (by rw [stepArrival_keep_of_new_none hkc hlk hi]; exact hlk) hne
    | some tN =>
      cases ht : kept.timestamp with
      | none => exact absurd (by rw [stepArrival_keep_of_old_none hkc hlk ht]; exact hlk) hne
      | some tO =>
        by_cases hcmp : tN < tO
        · refine ⟨tN, tO, rfl, rfl, hcmp, ?_⟩
          rw [stepArrival_replace hkc hlk hi ht hcmp]
          exact lookupVid_updateVid m v (mkBusRecord now p c) (by rw [hlk]; rfl)
        · exact absurd
            (by rw [stepArrival_keep_of_not_lt hkc hlk hi ht hcmp]; exact hlk) hne

/-- Witness for C3 at `now = 1000` with V1 due in 60 vs 120 seconds: both
orders retain instant 1060, and the general replace-only-if clause applied
to a concrete replacing step. -/
theorem c3_witness :
    ((lookupVid (reduceArrivals 1000 parseNone [arrKnown, arrLater]) "V1").map
        BusRecord.timestamp = some (some 1060)
     ∧ (lookupVid (reduceArrivals 1000 parseNone [arrLater, arrKnown]) "V1").map
        BusRecord.timestamp = some (some 1060))
    ∧ (∀ (m : List (String × BusRecord)) (c : RawArrival) (kept : BusRecord),
        keptVehicleId c.vehicleId = some "V1" → lookupVid m "V1" = some kept →
        lookupVid (stepArrival 1000 parseNone m c) "V1" ≠ some kept →
        ∃ tN tO, arrivalInstant 1000 parseNone c = some tN ∧ kept.timestamp = some tO
          ∧ tN < tO
          ∧ lookupVid (stepArrival 1000 parseNone m c) "V1"
              = some (mkBusRecord 1000 parseNone c)) :=
  c3_soonest_known_wins 1000 parseNone arrKnown arrLater "V1" 1060 1120 rfl rfl
    (by decide) (by decide) rfl rfl (by omega)

/-- Claim C9: no entry of the reducer output, and no entry of the sorted
`bus_data` it feeds, carries an empty or sentinel `"N/A"` vehicle
identifier — such raw records are discarded by the line 189 guard. -/
theorem c9_sentinel_ids_never_retained (now : Int) (p : String → Option Int)
    (data : List RawArrival) (registry : String → BTResponse) :
    (∀ q ∈ reduceArrivals now p data, q.1 ≠ "" ∧ q.1 ≠ "N/A")
    ∧ (∀ e ∈ sortedBuses registry (reduceArrivals now p data),
        e.1 ≠ "" ∧ e.1 ≠ "N/A") := by
  have h1 : ∀ q ∈ reduceArrivals now p data, q.1 ≠ "" ∧ q.1 ≠ "N/A" :=
    reduce_keys_aux now p data [] (by intro q hq; simp at hq)
  refine ⟨h1, ?_⟩
  intro e he
  have hmem : e ∈ busData registry (reduceArrivals now p data) :=
    (List.perm_insertionSort entryRel _).mem_iff.mp he
  rcases List.mem_map.mp hmem with ⟨pp, hpp, hE⟩
  have : e.1 = pp.1 := by rw [← hE]; rfl
  rw [this]
  exact h1 pp hpp

/-- Witness for C9: a feed containing a record without a vehicle id, one
with the sentinel `"N/A"` id, one with an empty id, and one valid record,
reduced at `now = 1000`; applied to the surviving V1 entry. -/
theorem c9_witness :
    ("V1", mkBusRecord 1000 parseNone arrKnown).1 ≠ ""
    ∧ ("V1", mkBusRecord 1000 parseNone arrKnown).1 ≠ "N/A" :=
  (c9_sentinel_ids_never_retained 1000 parseNone
    [⟨none, none, none, some 30, none⟩, ⟨some "N/A", none, none, some 30, none⟩,
      ⟨some "", none, none, some 30, none⟩, arrKnown]
    (fun _ => BTResponse.failure)).1
    ("V1", mkBusRecord 1000 parseNone arrKnown) (by decide)

/-! ## Claim about the Normalizer -/

/-- Claim C5: the arrival instant is `now + timeToStation` whenever
`timeToStation` is present (regardless of `expectedArrival` — the sources
are never combined), else the parse of `expectedArrival` when present, else
unknown; a parse failure yields the unknown instant rendered as the literal
`"N/A"`, and the normalizer is a total function, so nothing is raised to
the caller. -/
theorem c5_normalizer_spec (now : Int) (p : String → Option Int) (a : RawArrival) :
    (∀ k, a.timeToStation = some k → arrivalInstant now p a = some (now + k))
    ∧ (∀ s, a.timeToStation = none → a.expectedArrival = some s →
        arrivalInstant now p a = p s)
    ∧ (a.timeToStation = none → a.expectedArrival = none →
        arrivalInstant now p a = none)
    ∧ (∀ k e e', a.timeToStation = some k →
        arrivalInstant now p { a with expectedArrival := e }
          = arrivalInstant now p { a with expectedArrival := e' })
    ∧ (∀ s, a.timeToStation = none → a.expectedArrival = some s → p s = none →
        timeDue now p a = "N/A")
    ∧ (arrivalInstant now p a = none → timeDue now p a = "N/A") := by
  refine ⟨?_, ?_, ?_, ?_, ?_, ?_⟩
  · intro k hk
    simp [arrivalInstant, hk]
  · intro s ht hs
    simp [arrivalInstant, ht, hs]
  · intro ht hs
    simp [arrivalInstant, ht, hs]
  · intro k e e' hk
    simp [arrivalInstant, hk]
  · intro s ht hs hp
    simp [timeDue, arrivalInstant, ht, hs, hp]
  · intro hnone
    simp [timeDue, hnone]

/-- Witness for C5 at `now = 1000` with the concrete arrivals: the
known record gets instant 1060, the record with a failing timestamp parse
renders `"N/A"`. -/
theorem c5_witness :
    arrivalInstant 1000 parseNone arrKnown = some (1000 + 60)
    ∧ timeDue 1000 parseNone ⟨some "V1", none, none, none, some "bad"⟩ = "N/A" :=
  ⟨(c5_normalizer_spec 1000 parseNone arrKnown).1 60 rfl,
    ((c5_normalizer_spec 1000 parseNone ⟨some "V1", none, none, none, some "bad"⟩).2.2.2.2.1)
      "bad" rfl rfl rfl⟩

/-! ## Claim about the Summary Builder -/

/-- A `bus_info` record used by concrete inputs. -/
def recOne : BusRecord := ⟨"Dest1", "Stop1", "N/A", none⟩

/-- Another `bus_info` record used by concrete inputs. -/
def recTwo : BusRecord := ⟨"Dest2", "Stop2", "N/A", none⟩

/-- Claim C4: for a `bus_info` mapping with pairwise-distinct vehicle
identifiers (as every Python dict has), the sorted `bus_data` is strictly
ascending by vehicle identifier under Python string order, and permuting
the mapping leaves the rendered line sequence identical. -/
theorem c4_builder_sorted_and_perm_invariant (registry : String → BTResponse)
    (busInfo busInfo' : List (String × BusRecord))
    (hkeys : busInfo.Pairwise (fun pq pq' => pq.1 ≠ pq'.1))
    (hperm : busInfo'.Perm busInfo) :
    List.Pairwise (fun e e' : Entry => pyStrLt e.1 e'.1 = true)
        (sortedBuses registry busInfo)
    ∧ busLines registry busInfo' = busLines registry busInfo := by
  constructor
  · have hsorted : List.Sorted entryRel (sortedBuses registry busInfo) :=
      List.sorted_insertionSort entryRel _
    have hne : (busData registry busInfo).Pairwise (fun e e' => e.1 ≠ e'.1) := by
      unfold busData
      exact List.pairwise_map.mpr (hkeys.imp (fun h => h))
    have hne' : (sortedBuses registry busInfo).Pairwise (fun e e' => e.1 ≠ e'.1) :=
      hne.perm (List.perm_insertionSort entryRel _).symm (fun h => h.symm)
    exact (hsorted.and hne').imp (fun h => entryRel_first_lt h.1 h.2)
  · have hperm2 : (busData registry busInfo').Perm (busData registry busInfo) :=
      hperm.map _
    have h1 : (sortedBuses registry busInfo').Perm (sortedBuses registry busInfo) :=
      ((List.perm_insertionSort entryRel _).trans hperm2).trans
        (List.perm_insertionSort entryRel _).symm
    have he : sortedBuses registry busInfo' = sortedBuses registry busInfo :=
      List.eq_of_perm_of_sorted h1 (List.sorted_insertionSort entryRel _)
        (List.sorted_insertionSort entryRel _)
    unfold busLines
    rw [he]

/-- Witness for C4: two vehicles A and B listed in either order under a
registry that always fails; the sorted output is strictly ascending and
both orders render the same lines. -/
theorem c4_witness :
    List.Pairwise (fun e e' : Entry => pyStrLt e.1 e'.1 = true)
        (sortedBuses (fun _ => BTResponse.failure) [("B", recOne), ("A", recTwo)])
    ∧ busLines (fun _ => BTResponse.failure) [("A", recTwo), ("B", recOne)]
        = busLines (fun _ => BTResponse.failure) [("B", recOne), ("A", recTwo)] :=
  c4_builder_sorted_and_perm_invariant (fun _ => BTResponse.failure)
    [("B", recOne), ("A", recTwo)] [("A", recTwo), ("B", recOne)]
    (by decide) (by decide)

/-! ## Claim about the Vehicle Enricher fleet-code choice -/

/-- Claim C10: the fleet code is the first truthy value among the first
registry result field `fleet_code`, the field `fleet_number` and
`"N/A"`; in particular a present-but-empty `fleet_code` is treated as
absent and falls back to the fleet number. -/
theorem c10_fleet_code_first_truthy (registry : String → BTResponse) (r : String)
    (v : BTVehicle) (rest : List BTVehicle)
    (hreg : registry (normalizeReg r) = .ok (v :: rest)) :
    (∀ c, v.fleet_code = some c → c ≠ "" → fleetCodeFor registry r = c)
    ∧ ((v.fleet_code = none ∨ v.fleet_code = some "") →
        ∀ n, v.fleet_number = some n → n ≠ "" → fleetCodeFor registry r = n)
    ∧ ((v.fleet_code = none ∨ v.fleet_code = some "") →
        (v.fleet_number = none ∨ v.fleet_number = some "") →
        fleetCodeFor registry r = "N/A") := by
  have hv : fleetCodeFor registry r = pyOrStr v.fleet_code (pyOrStr v.fleet_number "N/A") := by
    unfold fleetCodeFor
    rw [hreg]
  refine ⟨?_, ?_, ?_⟩
  · intro c hc hcne
    rw [hv, hc]
    simp [pyOrStr, hcne]
  · intro hcf n hn hnne
    rw [hv]
    rcases hcf with h | h <;> rw [h, hn] <;> simp [pyOrStr, hnne]
  · intro hcf hnf
    rw [hv]
    rcases hcf with h | h <;> rcases hnf with h' | h' <;> rw [h, h'] <;> simp [pyOrStr]

/-- Witness for C10: a registry whose single result has a present-but-empty
fleet code and fleet number 1234; the enricher yields the fleet number. -/
theorem c10_witness :
    fleetCodeFor
      (fun _ => BTResponse.ok
        [⟨some "AB12CDE", none, some "1234", some "", none, none, none, none, none, none⟩])
      "AB12CDE" = "1234" :=
  (c10_fleet_code_first_truthy
    (fun _ => BTResponse.ok
      [⟨some "AB12CDE", none, some "1234", some "", none, none, none, none, none, none⟩])
    "AB12CDE"
    ⟨some "AB12CDE", none, some "1234", some "", none, none, none, none, none, none⟩
    [] rfl).2.1 (Or.inr rfl) "1234" rfl (by decide)

/-! ## Claim about failure isolation -/

/-- Claim C6: degrading the registry for one registration to failure sets
that vehicle's fleet code to `"N/A"` without changing any other vehicle's
entry, and a route whose processing fails contributes no block while the
blocks of the sibling routes are exactly those they contribute alone. -/
theorem c6_failure_isolation (f g : String → BTResponse) (r0 : String)
    (hagree : ∀ s, s ≠ normalizeReg r0 → f s = g s)
    (hfail : g (normalizeReg r0) = .failure) :
    fleetCodeFor g r0 = "N/A"
    ∧ (∀ r, normalizeReg r ≠ normalizeReg r0 → fleetCodeFor g r = fleetCodeFor f r)
    ∧ (∀ pr : String × BusRecord, normalizeReg pr.1 ≠ normalizeReg r0 →
        busEntry g pr = busEntry f pr)
    ∧ (∀ (B : Type) (p q : String → Option B) (rt : String) (routes : List String),
        q rt = none → (∀ r, r ≠ rt → q r = p r) →
        routes.filterMap q = (routes.filter (fun r => r != rt)).filterMap p) := by
  have h2 : ∀ r, normalizeReg r ≠ normalizeReg r0 → fleetCodeFor g r = fleetCodeFor f r := by
    intro r hr
    unfold fleetCodeFor
    rw [hagree _ hr]
  refine ⟨?_, h2, ?_, ?_⟩
  · unfold fleetCodeFor
    rw [hfail]
  · intro pr hpr
    unfold busEntry
    rw [h2 _ hpr]
  · intro B p q rt routes hq hqp
    induction routes with
    | nil => rfl
    | cons r t ih =>
      rw [List.filterMap_cons, List.filter_cons]
      by_cases hr : r = rt
      · subst hr
        simp only [hq, bne_self_eq_false, Bool.false_eq_true, if_false]
        exact ih
      · rw [hqp _ hr]
        have hb : ((r != rt) = true) := by simp [hr]
        rw [if_pos hb, List.filterMap_cons]
        cases p r with
        | none => exact ih
        | some b => rw [ih]

/-- Witness for C6: registry g fails exactly on V1 while agreeing with f
elsewhere; process function q fails exactly on route 999. -/
theorem c6_witness :
    fleetCodeFor
        (fun s => if s = normalizeReg "V1" then BTResponse.failure else BTResponse.ok [])
        "V1" = "N/A"
    ∧ (∀ r, normalizeReg r ≠ normalizeReg "V1" →
        fleetCodeFor
            (fun s => if s = normalizeReg "V1" then BTResponse.failure else BTResponse.ok [])
            r
          = fleetCodeFor (fun _ => BTResponse.ok []) r)
    ∧ (∀ pr : String × BusRecord, normalizeReg pr.1 ≠ normalizeReg "V1" →
        busEntry
            (fun s => if s = normalizeReg "V1" then BTResponse.failure else BTResponse.ok [])
            pr
          = busEntry (fun _ => BTResponse.ok []) pr)
    ∧ (∀ (B : Type) (p q : String → Option B) (rt : String) (routes : List String),
        q rt = none → (∀ r, r ≠ rt → q r = p r) →
        routes.filterMap q = (routes.filter (fun r => r != rt)).filterMap p) :=
  c6_failure_isolation (fun _ => BTResponse.ok [])
    (fun s => if s = normalizeReg "V1" then BTResponse.failure else BTResponse.ok [])
    "V1" (fun s hs => by simp [hs]) (by simp)

/-! ## Claim about the Route Query Orchestrator response cap -/

/-- Claim C7: when the `route` command replies with embed blocks, those are
exactly the first ten blocks the routes produced (so at most ten, with any
further successful block silently dropped); when the token list is nonempty
but no route produced a block, the uniform nothing-found message is sent. -/
theorem c7_embed_cap (B : Type) (p : String → Option B) (input : String) :
    (∀ bs, routeCommand p input = .embeds bs →
        bs.length ≤ 10 ∧ bs = ((routeTokens input).filterMap p).take 10)
    ∧ (routeTokens input ≠ [] → (routeTokens input).filterMap p = [] →
        routeCommand p input
          = .message "Could not retrieve information for any of the requested routes.")
    ∧ (routeTokens input ≠ [] → (routeTokens input).filterMap p ≠ [] →
        routeCommand p input = .embeds (((routeTokens input).filterMap p).take 10)) := by
  by_cases hE : routeTokens input = []
  · refine ⟨?_, ?_, ?_⟩
    · intro bs hbs
      rw [routeCommand] at hbs
      simp [hE] at hbs
    · intro h
      exact absurd hE h
    · intro h
      exact absurd hE h
  · by_cases hF : (routeTokens input).filterMap p = []
    · refine ⟨?_, ?_, ?_⟩
      · intro bs hbs
        rw [routeCommand] at hbs
        simp [List.isEmpty_iff, hE, hF] at hbs
      · intro _ _
        rw [routeCommand]
        simp [List.isEmpty_iff, hE, hF]
      · intro _ h
        exact absurd hF h
    · have hcmd : routeCommand p input = .embeds (((routeTokens input).filterMap p).take 10) := by
        rw [routeCommand]
        simp [List.isEmpty_iff, hE, hF]
      refine ⟨?_, ?_, ?_⟩
      · intro bs hbs
        rw [hcmd] at hbs
        cases hbs
        exact ⟨List.length_take_le 10 _, rfl⟩
      · intro _ h
        exact absurd h hF
      · intro _ _
        exact hcmd

/-- Witness for C7: input `"25,999"` with a process function succeeding
only on route 25 replies with exactly the one block, the first ten of the
produced blocks. -/
theorem c7_witness :
    routeCommand (fun r => if r = "25" then some 1 else none) "25,999"
      = RouteResponse.embeds
          (((routeTokens "25,999").filterMap (fun r => if r = "25" then some 1 else none)).take 10) :=
  (c7_embed_cap Nat (fun r => if r = "25" then some 1 else none) "25,999").2.2
    (by decide) (by decide)

/-! ## Claim about the Autocomplete Suggester -/

theorem truncateLabel_length_le (s : String) : (truncateLabel s).length ≤ 100 := by
  unfold truncateLabel
  by_cases h : s.length > 100
  · rw [if_pos h]
    have h1 : (String.mk (s.data.take 97) ++ "...").length
        = (s.data.take 97).length + 3 := by
      rw [String.length_append]
      rfl
    rw [h1]
    have := List.length_take_le 97 s.data
    omega
  · rw [if_neg h]
    omega

/-- Claim C8: an input shorter than two characters yields no suggestions;
any upstream failure yields no suggestions; on upstream success at most 25
choices are returned and every label is at most 100 characters long. -/
theorem c8_autocomplete_caps (search : String → Option (List BTVehicle)) (current : String) :
    (current.length < 2 → vehicleAutocomplete search current = [])
    ∧ (search (normalizeReg current) = none → vehicleAutocomplete search current = [])
    ∧ (∀ results, search (normalizeReg current) = some results →
        (vehicleAutocomplete search current).length ≤ 25
        ∧ ∀ c ∈ vehicleAutocomplete search current, c.label.length ≤ 100) := by
  refine ⟨?_, ?_, ?_⟩
  · intro h
    rw [vehicleAutocomplete, if_pos h]
  · intro h
    rw [vehicleAutocomplete]
    by_cases hlen : current.length < 2
    · rw [if_pos hlen]
    · rw [if_neg hlen, h]
  · intro results hres
    by_cases hlen : current.length < 2
    · rw [vehicleAutocomplete, if_pos hlen]
      exact ⟨by simp, by simp⟩
    · have hval : vehicleAutocomplete search current
          = (results.take 25).map (fun v => ⟨displayNameOf v, v.reg.getD ""⟩) := by
        rw [vehicleAutocomplete, if_neg hlen, hres]
      rw [hval]
      constructor
      · rw [List.length_map]
        exact List.length_take_le 25 results
      · intro c hc
        rcases List.mem_map.mp hc with ⟨v, _, hv⟩
        rw [← hv]
        exact truncateLabel_length_le _

/-- Witness for C8: a successful search returning one result with an
overlong operator name; the returned choices are capped and the labels
bounded. -/
theorem c8_witness :
    (vehicleAutocomplete
        (fun _ => some [⟨some "AB12CDE", none, none, none, none, none, none, none, none, none⟩])
        "AB").length ≤ 25
    ∧ ∀ c ∈ vehicleAutocomplete
        (fun _ => some [⟨some "AB12CDE", none, none, none, none, none, none, none, none, none⟩])
        "AB", c.label.length ≤ 100 :=
  (c8_autocomplete_caps
    (fun _ => some [⟨some "AB12CDE", none, none, none, none, none, none, none, none, none⟩])
    "AB").2.2
    [⟨some "AB12CDE", none, none, none, none, none, none, none, none, none⟩] rfl

/-! ## Claim about the Vehicle Lookup command -/

/-- Claim C2, counterexample: a non-success HTTP status (500) renders
`"An HTTP error occurred: ..."` with the error text embedded, which is NOT
the same text as the generic failure message rendered for an unexpected
parse failure — so the service-error outcome and the parse-failure outcome
do not share one generic failure message, contradicting the claimed three
terminal outcomes. -/
theorem c2_counterexample :
    vehicleCommand "AB12CDE" (.httpError 500 "500 Server Error: Internal Server Error")
      = .message ("An HTTP error occurred: " ++ "500 Server Error: Internal Server Error")
    ∧ vehicleCommand "AB12CDE" .parseFailure
      = .message "Sorry, an unexpected error occurred while fetching the vehicle data."
    ∧ vehicleCommand "AB12CDE" (.httpError 500 "500 Server Error: Internal Server Error")
      ≠ vehicleCommand "AB12CDE" .parseFailure := by
  refine ⟨rfl, rfl, ?_⟩
  decide

/-- Claim C2 (amended): the terminal outcomes of the `vehicle` command are:
reachable with no match renders the not-found message; a first result
renders the profile embed; a non-success HTTP status renders the HTTP-error
message embedding the error text (the dedicated 404 branch of line 380 is
unreachable because an error response is falsy); a connection failure and an
unexpected parse failure render the same generic plain-language failure
message; no failure outcome embeds a stack trace or the upstream payload
body. -/
theorem c2_amended_outcomes (registration : String) :
    (vehicleCommand registration (.ok [])
      = .message ("No vehicle found with registration **" ++ registration ++ "**."))
    ∧ (∀ v rest, vehicleCommand registration (.ok (v :: rest)) = .profile v)
    ∧ (∀ s e, 400 ≤ s →
        vehicleCommand registration (.httpError s e)
          = .message ("An HTTP error occurred: " ++ e))
    ∧ (vehicleCommand registration .connectionFailure
        = .message "Sorry, an unexpected error occurred while fetching the vehicle data.")
    ∧ (vehicleCommand registration .parseFailure
        = .message "Sorry, an unexpected error occurred while fetching the vehicle data.") := by
  refine ⟨rfl, fun v rest => rfl, ?_, rfl, rfl⟩
  intro s e hs
  have hcond : (responseTruthy s && s == 404) = false := by
    unfold responseTruthy
    have : ¬ (s < 400) := by omega
    simp [this]
  rw [vehicleCommand]
  rw [hcond]
  simp

/-- Witness for the amended C2: a 500 status renders the HTTP-error
message. -/
theorem c2_amended_witness :
    vehicleCommand "AB12CDE" (.httpError 500 "boom")
      = .message ("An HTTP error occurred: " ++ "boom") :=
  (c2_amended_outcomes "AB12CDE").2.2.1 500 "boom" (by omega)

end Oke
